import Mathlib

/-!
Verification of the transpose-module verification harness
(gateware/sim/transpose/tb_transpose.py) and of the spec-described
envelope crossfade invariant of the module under test.

The harness drives a pitch-shifter DUT: it zero-fills for 1024 sample-clock
ticks, then feeds 2048 sine samples while checking consecutive decoded
outputs for discontinuities (absolute delta strictly greater than 50).
The DUT itself is hardware not present in the sources, so the testbench
loop is embedded as a state machine parameterized by the sequence of
decoded output samples it would observe.
-/

open Real

/-- Modelled from the spec: `signed_from_bits` from util/i2s.py (the helper
module is outside the given sources). Decodes a raw bit pattern of width `w`
as a two's-complement signed integer, per the spec's description of samples
as fixed-width signed integers. -/
def signed_from_bits (b : Nat) (w : Nat) : Int :=
  let m := b % 2 ^ w
  if m < 2 ^ (w - 1) then (m : Int) else (m : Int) - 2 ^ w

/-- Modelled from the spec: `bits_from_signed` from util/i2s.py (the helper
module is outside the given sources). Encodes a signed integer into its
two's-complement bit pattern of width `w` (Python `x % 2**w`). -/
def bits_from_signed (x : Int) (w : Nat) : Nat :=
  (x % (2 ^ w : Int)).toNat

/-- State carried across iterations of the stimulus loop of
`test_transpose_00`: the previously read output sample (`None` before the
first iteration) and the `breaknext` flag set when a discontinuity is seen. -/
structure TBState where
  data_out_last : Option Int
  breaknext : Bool

/-- Result of one loop body execution: either the updated state, or the
`assert(False)` branch was taken. -/
inductive StepRes where
  | ok (s : TBState)
  | failed

/-- One execution of the checking part of the stimulus loop body of
`test_transpose_00`, given the decoded output sample `data_out` read this
iteration. Mirrors lines 51-67 of tb_transpose.py: if a previous sample
exists and `breaknext` is set, the assertion fails; otherwise a delta whose
absolute value strictly exceeds 50 sets `breaknext`; the previous-sample
register is always updated. -/
def tbCheck (data_out : Int) (s : TBState) : StepRes :=
  match s.data_out_last with
  | none => StepRes.ok ⟨some data_out, s.breaknext⟩
  | some last =>
    if s.breaknext then StepRes.failed
    else if 50 < (data_out - last).natAbs then StepRes.ok ⟨some data_out, true⟩
    else StepRes.ok ⟨some data_out, s.breaknext⟩

/-- The stimulus loop of `test_transpose_00`, run from iteration `i` for
`fuel` remaining iterations with state `s`, where `out j` is the decoded
output sample read at iteration `j`. Returns `some j` when the assertion
fails at iteration `j`, and `none` when the loop completes. -/
def tbLoop (out : Nat → Int) : Nat → Nat → TBState → Option Nat
  | _, 0, _ => none
  | i, fuel + 1, s =>
    match tbCheck (out i) s with
    | StepRes.failed => some i
    | StepRes.ok t => tbLoop out (i + 1) fuel t

/-- Outcome of the whole 2048-iteration stimulus phase of
`test_transpose_00` on an output trace `out` (indexed by stimulus
iteration): `some j` means the assertion failed at iteration `j`, `none`
means the test passed. -/
def tbResult (out : Nat → Int) : Option Nat :=
  tbLoop out 0 2048 ⟨none, false⟩

/-- Number of warm-up sample-clock ticks during which the harness lets the
delay lines fill with zeroes (the `for i in range(1024)` loop). -/
def warmup_ticks : Nat := 1024

/-- Outcome of the test on a global output trace `outG`, where `outG t` is
the decoded output present after the t-th rising edge of the sample clock
(edges 1..1024 are consumed by warm-up; stimulus iteration `i` reads the
output after edge `1024 + 1 + i`). -/
def tbResultG (outG : Nat → Int) : Option Nat :=
  tbResult (fun i => outG (warmup_ticks + 1 + i))

/-- The stimulus sample computed at iteration `i` of the loop:
`int(1000*math.sin(i/100))`, with Python `int()` truncating toward zero. -/
noncomputable def data_in (i : Nat) : Int :=
  if 0 ≤ 1000 * Real.sin ((i : ℝ) / 100) then ⌊1000 * Real.sin ((i : ℝ) / 100)⌋
  else ⌈1000 * Real.sin ((i : ℝ) / 100)⌉

/-- The spec's description of the stimulus, for comparison with `data_in`:
`round(1000 * sin(i/100))`. -/
noncomputable def specStim (i : Nat) : Int :=
  round ((1000 : ℝ) * Real.sin ((i : ℝ) / 100))

/-- Value driven on `dut.sample_in` after the harness's reaction to the
t-th rising edge (with `sample_in_drive 0` the initial value from line 26):
zero up to and including the last warm-up edge, then the encoded stimulus;
stimulus iteration `i` writes `bits_from_signed (data_in i) 16` after edge
`warmup_ticks + 1 + i`. -/
noncomputable def sample_in_drive (t : Nat) : Nat :=
  if t ≤ warmup_ticks then 0
  else bits_from_signed (data_in (t - (warmup_ticks + 1))) 16

/-- The complete list of writes the harness performs to `dut.pitch`, as
pairs (tick of the write, value written): a single write of `5000*4` at
initialization (line 27), before any clock edge. -/
def pitch_writes : List (Nat × Nat) := [(0, 5000 * 4)]

/-- Value of `dut.pitch` in effect at tick `t`: the last write performed at
or before `t` (zero if none, which never happens here). -/
def pitch_drive (t : Nat) : Nat :=
  (pitch_writes.filter (fun p => decide (p.1 ≤ t))).foldl (fun _ p => p.2) 0

/-- Modelled from the spec: the transpose module's envelope generators are
hardware not present in the given sources. Per spec 4.3 the envelope is a
triangular gain window over one grain period, minimal at the wrap boundary
and maximal at mid-grain: over a period `n`, phase `p < n` maps to
`min p (n - p)`. -/
def tri (n p : Nat) : Nat := min p (n - p)

/-- Modelled from the spec: envelope gain of read engine 0 at tick `t`,
with half grain period `m` (full period `2*m`). -/
def env0 (m t : Nat) : Nat := tri (2 * m) (t % (2 * m))

/-- Modelled from the spec: envelope gain of read engine 1 at tick `t`,
phase-offset from engine 0 by half a grain period `m`. -/
def env1 (m t : Nat) : Nat := tri (2 * m) ((t + m) % (2 * m))

/-! ### Helper lemmas about the stimulus loop -/

lemma tbLoop_break (out : Nat → Int) (i fuel : Nat) (v : Int) :
    tbLoop out i (fuel + 1) ⟨some v, true⟩ = some i := by
  simp [tbLoop, tbCheck]

lemma tbLoop_succ_false (out : Nat → Int) (i fuel : Nat) (v : Int) :
    tbLoop out i (fuel + 1) ⟨some v, false⟩ =
      if 50 < (out i - v).natAbs then tbLoop out (i + 1) fuel ⟨some (out i), true⟩
      else tbLoop out (i + 1) fuel ⟨some (out i), false⟩ := by
  by_cases hc : 50 < (out i - v).natAbs <;> simp [tbLoop, tbCheck, hc]

lemma tbLoop_none (out : Nat → Int) :
    ∀ fuel i, 1 ≤ i →
      (∀ j, i ≤ j → j + 1 < i + fuel → (out j - out (j - 1)).natAbs ≤ 50) →
      tbLoop out i fuel ⟨some (out (i - 1)), false⟩ = none := by
  intro fuel
  induction fuel with
  | zero => intro i _ _; rfl
  | succ f ih =>
    intro i hi h
    rw [tbLoop_succ_false]
    by_cases hc : 50 < (out i - out (i - 1)).natAbs
    · rw [if_pos hc]
      have hf : f = 0 := by
        by_contra hf
        have := h i (le_refl i) (by omega)
        omega
      subst hf
      rfl
    · rw [if_neg hc]
      have h0 : out i = out (i + 1 - 1) := by norm_num
      rw [h0]
      exact ih (i + 1) (by omega) (fun j hj hj2 => h j (by omega) (by omega))

lemma tbLoop_fail (out : Nat → Int) :
    ∀ fuel i j, 1 ≤ i → i ≤ j → j + 1 < i + fuel →
      (∀ k, i ≤ k → k < j → (out k - out (k - 1)).natAbs ≤ 50) →
      50 < (out j - out (j - 1)).natAbs →
      tbLoop out i fuel ⟨some (out (i - 1)), false⟩ = some (j + 1) := by
  intro fuel
  induction fuel with
  | zero => intro i j hi hij hlt _ _; omega
  | succ f ih =>
    intro i j hi hij hlt hmin hj
    rw [tbLoop_succ_false]
    rcases eq_or_lt_of_le hij with rfl | hlt2
    · rw [if_pos hj]
      obtain ⟨g, rfl⟩ : ∃ g, f = g + 1 := ⟨f - 1, by omega⟩
      exact tbLoop_break out (i + 1) g (out i)
    · have hle := hmin i (le_refl i) hlt2
      rw [if_neg (by omega)]
      have h0 : out i = out (i + 1 - 1) := by norm_num
      rw [h0]
      exact ih (i + 1) j (by omega) hlt2 (by omega)
        (fun k hk1 hk2 => hmin k (by omega) hk2) hj

lemma tbResult_unfold (out : Nat → Int) :
    tbResult out = tbLoop out 1 2047 ⟨some (out 0), false⟩ := rfl

lemma tbResult_none (out : Nat → Int)
    (h : ∀ j, 1 ≤ j → j ≤ 2046 → (out j - out (j - 1)).natAbs ≤ 50) :
    tbResult out = none := by
  rw [tbResult_unfold]
  exact tbLoop_none out 2047 1 (le_refl 1) (fun j hj hj2 => h j hj (by omega))

lemma tbResult_fail (out : Nat → Int) (j : Nat) (h1 : 1 ≤ j) (h2 : j ≤ 2046)
    (hmin : ∀ k, 1 ≤ k → k < j → (out k - out (k - 1)).natAbs ≤ 50)
    (hj : 50 < (out j - out (j - 1)).natAbs) :
    tbResult out = some (j + 1) := by
  rw [tbResult_unfold]
  exact tbLoop_fail out 2047 1 j (le_refl 1) h1 (by omega) hmin hj

lemma tbLoop_min (out : Nat → Int) : ∀ fuel i (s : TBState) k,
    tbLoop out i fuel s = some k → i ≤ k := by
  intro fuel
  induction fuel with
  | zero => intro i s k h; exact absurd h (by simp [tbLoop])
  | succ f ih =>
    intro i s k h
    rw [tbLoop] at h
    cases hc : tbCheck (out i) s with
    | failed => rw [hc] at h; simp at h; omega
    | ok t => rw [hc] at h; have := ih (i + 1) t k h; omega

lemma tbResult_some_ge_two (out : Nat → Int) (k : Nat)
    (h : tbResult out = some k) : 2 ≤ k := by
  rw [tbResult_unfold, show (2047 : Nat) = 2046 + 1 from rfl, tbLoop_succ_false] at h
  split at h
  · exact tbLoop_min out 2046 2 ⟨some (out 1), true⟩ k h
  · exact tbLoop_min out 2046 2 ⟨some (out 1), false⟩ k h

lemma tbResult_none_iff (out : Nat → Int) :
    tbResult out = none ↔
      ∀ j, 1 ≤ j → j ≤ 2046 → (out j - out (j - 1)).natAbs ≤ 50 := by
  constructor
  · intro h
    by_contra hh
    push_neg at hh
    obtain ⟨j, hj1, hj2, hj3⟩ := hh
    have hex : ∃ n, 1 ≤ n ∧ n ≤ 2046 ∧ 50 < (out n - out (n - 1)).natAbs :=
      ⟨j, hj1, hj2, by omega⟩
    obtain ⟨hn1, hn2, hn3⟩ := Nat.find_spec hex
    have hmin : ∀ k, 1 ≤ k → k < Nat.find hex →
        (out k - out (k - 1)).natAbs ≤ 50 := by
      intro k hk1 hk2
      have hnot := Nat.find_min hex hk2
      by_contra hcon
      exact hnot ⟨hk1, by omega, by omega⟩
    rw [tbResult_fail out (Nat.find hex) hn1 hn2 hmin hn3] at h
    exact absurd h (by simp)
  · exact tbResult_none out

/-! ### Concrete output traces used as counterexamples and witnesses -/

/-- Output trace whose only large consecutive delta is at the final
stimulus iteration 2047. -/
def outC1trace : Nat → Int := fun i => if i = 2047 then 100 else 0

/-- Output trace with a large consecutive delta at stimulus iteration 5. -/
def outC1w : Nat → Int := fun i => if i = 5 then 60 else 0

/-- Output trace whose first large consecutive delta is at stimulus
iteration 1. -/
def outC2trace : Nat → Int := fun i => if i = 1 then 100 else 0

/-- Output trace whose first large consecutive delta is at stimulus
iteration 7. -/
def outC2w : Nat → Int := fun i => if i = 7 then 200 else 0

/-- Output trace whose first large consecutive delta is at stimulus
iteration 3, far before index 1024. -/
def outC4trace : Nat → Int := fun i => if i = 3 then 100 else 0

/-- Output trace whose only large consecutive delta is at the final
stimulus iteration 2047. -/
def outC9w : Nat → Int := fun i => if i = 2047 then 1000 else 0

/-- Output trace whose first large consecutive delta is at stimulus
iteration 2. -/
def outC10w : Nat → Int := fun i => if i = 2 then 99 else 0

lemma env_sum (m t : Nat) (hm : 0 < m) : env0 m t + env1 m t = m := by
  have h2m : 0 < 2 * m := by omega
  have ha2 : t % (2 * m) < 2 * m := Nat.mod_lt _ h2m
  have hb : (t + m) % (2 * m) = (t % (2 * m) + m) % (2 * m) := by
    rw [Nat.add_mod, Nat.mod_eq_of_lt (show m < 2 * m by omega)]
  rcases Nat.lt_or_ge (t % (2 * m)) m with h | h
  · have hb2 : (t + m) % (2 * m) = t % (2 * m) + m := by
      rw [hb]
      exact Nat.mod_eq_of_lt (by omega)
    unfold env0 env1 tri
    rw [hb2]
    simp only [Nat.min_def]
    split_ifs <;> omega
  · have hb2 : (t + m) % (2 * m) = t % (2 * m) - m := by
      rw [hb, Nat.mod_eq_sub_mod (show 2 * m ≤ t % (2 * m) + m by omega)]
      have he : t % (2 * m) + m - 2 * m = t % (2 * m) - m := by omega
      rw [he]
      exact Nat.mod_eq_of_lt (by omega)
    unfold env0 env1 tri
    rw [hb2]
    simp only [Nat.min_def]
    split_ifs <;> omega

/-! ### Claim theorems -/

/-- Claim C1 (counterexample): the claim says a flagged discontinuity
always causes the test to fail via assertion; on the trace `outC1trace`
the delta at the final iteration 2047 exceeds 50 (so the flag is set),
yet the test completes without an assertion failure. -/
theorem claim_C1_counterexample :
    50 < (outC1trace 2047 - outC1trace 2046).natAbs ∧
      tbResult outC1trace = none := by
  constructor
  · decide
  · apply tbResult_none
    intro j h1 h2
    rw [show outC1trace j = 0 from if_neg (by omega),
      show outC1trace (j - 1) = 0 from if_neg (by omega)]
    decide

/-- Claim C1 (amended): during the stimulus phase, once a previous output
sample exists, a discontinuity is flagged exactly when the absolute delta
between consecutive decoded outputs strictly exceeds 50 (a delta of 50 or
less is never flagged), and the test fails via assertion exactly when such
a delta occurs at some iteration up to 2046; a flag first raised at the
final iteration 2047 does not fail the test. -/
theorem claim_C1 (out : Nat → Int) :
    tbResult out ≠ none ↔
      ∃ j, 1 ≤ j ∧ j ≤ 2046 ∧ 50 < (out j - out (j - 1)).natAbs := by
  rw [Ne, tbResult_none_iff]
  push_neg
  rfl

/-- Witness for claim C1 at the concrete trace `outC1w`. -/
theorem claim_C1_witness : tbResult outC1w ≠ none :=
  (claim_C1 outC1w).mpr ⟨5, by norm_num, by norm_num, by decide⟩

/-- Claim C2 (counterexample): the claim says the test fails at the tick
on which the discontinuity is observed; on the trace `outC2trace` the
discontinuity is observed at iteration 1 but the assertion fails at
iteration 2. -/
theorem claim_C2_counterexample :
    50 < (outC2trace 1 - outC2trace 0).natAbs ∧
      tbResult outC2trace = some 2 ∧ (2 : Nat) ≠ 1 := by
  refine ⟨by decide, ?_, by norm_num⟩
  apply tbResult_fail outC2trace 1 (le_refl 1) (by norm_num)
  · intro k h1 h2
    omega
  · decide

/-- Claim C2 (amended): when the first discontinuity (consecutive delta
strictly exceeding 50) is observed at iteration `j` with `j ≤ 2046`, the
test fails by assertion at iteration `j + 1`, the tick after the one on
which the discontinuity is observed (one extra sample is printed for
debugging before the assertion). -/
theorem claim_C2 (out : Nat → Int) (j : Nat) (h1 : 1 ≤ j) (h2 : j ≤ 2046)
    (hmin : ∀ k, 1 ≤ k → k < j → (out k - out (k - 1)).natAbs ≤ 50)
    (hj : 50 < (out j - out (j - 1)).natAbs) :
    tbResult out = some (j + 1) :=
  tbResult_fail out j h1 h2 hmin hj

/-- Witness for claim C2 at the concrete trace `outC2w`: the discontinuity
is observed at iteration 7 and the assertion fires at iteration 8. -/
theorem claim_C2_witness : tbResult outC2w = some 8 := by
  apply claim_C2 outC2w 7 (by norm_num) (by norm_num)
  · intro k h1 h2
    rw [show outC2w k = 0 from if_neg (by omega),
      show outC2w (k - 1) = 0 from if_neg (by omega)]
    decide
  · decide

/-- Claim C4 (counterexample): the claim says the delta check is asserted
exactly for indices at least 1024 and for no earlier index; on the trace
`outC4trace` a delta exceeding 50 at stimulus index 3 (far before 1024)
causes the test to fail, at iteration 4. -/
theorem claim_C4_counterexample :
    tbResult outC4trace = some 4 ∧ (3 : Nat) < 1024 := by
  refine ⟨?_, by norm_num⟩
  apply tbResult_fail outC4trace 3 (by norm_num) (by norm_num)
  · intro k h1 h2
    rw [show outC4trace k = 0 from if_neg (by omega),
      show outC4trace (k - 1) = 0 from if_neg (by omega)]
    decide
  · decide

/-- Claim C4 (amended): the consecutive-sample delta check is applied at
every stimulus iteration at which a previous output sample exists, that
is from stimulus index 1 on, not only from index 1024: the test passes
exactly when no consecutive delta strictly exceeds 50 at any index from 1
to 2046. -/
theorem claim_C4 (out : Nat → Int) :
    tbResult out = none ↔
      ∀ j, 1 ≤ j → j ≤ 2046 → (out j - out (j - 1)).natAbs ≤ 50 :=
  tbResult_none_iff out

/-- Witness for claim C4 at the all-zero trace: no delta ever exceeds 50
and the test passes. -/
theorem claim_C4_witness : tbResult (fun _ => (0 : Int)) = none :=
  (claim_C4 (fun _ => (0 : Int))).mpr (fun j h1 h2 => by decide)

/-- Claim C6: for the spec-modelled envelope generators (triangular
windows phase-offset by half a grain period `m`), the sum of the two
envelope gains is the same value at every tick. -/
theorem claim_C6 (m t u : Nat) (hm : 0 < m) :
    env0 m t + env1 m t = env0 m u + env1 m u := by
  rw [env_sum m t hm, env_sum m u hm]

/-- Witness for claim C6 with half grain period 4 at ticks 5 and 9. -/
theorem claim_C6_witness :
    (0 : Nat) < 4 ∧ env0 4 5 + env1 4 5 = env0 4 9 + env1 4 9 :=
  ⟨by decide, claim_C6 4 5 9 (by decide)⟩

/-- Claim C8: the harness writes `dut.pitch` exactly once, at
initialization, with value `5000 * 4 = 20000`; the pitch value in effect
is therefore `20000` at every tick and never changes. -/
theorem claim_C8 :
    (∀ t, pitch_drive t = 5000 * 4) ∧ ∀ s t, pitch_drive s = pitch_drive t := by
  have h : ∀ t, pitch_drive t = 5000 * 4 := by
    intro t
    simp [pitch_drive, pitch_writes]
  exact ⟨h, fun s t => by rw [h s, h t]⟩

/-- Claim C9: if the delta threshold of 50 is first exceeded at the final
stimulus iteration 2047, the test completes without an assertion failure:
a discontinuity between the last two checked samples is never reported. -/
theorem claim_C9 (out : Nat → Int)
    (h : ∀ j, 1 ≤ j → j ≤ 2046 → (out j - out (j - 1)).natAbs ≤ 50)
    (_hd : 50 < (out 2047 - out 2046).natAbs) :
    tbResult out = none :=
  tbResult_none out h

/-- Witness for claim C9 at the concrete trace `outC9w`, whose only large
delta is at the final iteration. -/
theorem claim_C9_witness : tbResult outC9w = none := by
  apply claim_C9 outC9w
  · intro j h1 h2
    rw [show outC9w j = 0 from if_neg (by omega),
      show outC9w (j - 1) = 0 from if_neg (by omega)]
    decide
  · decide

/-- Claim C10: the failure branch is unreachable at the first stimulus
iteration (no previous output sample has been recorded there): whenever
the assertion fails, it fails at an iteration index at least 2, hence
never at iteration 0, for every output trace. -/
theorem claim_C10 (out : Nat → Int) (k : Nat) (h : tbResult out = some k) :
    2 ≤ k :=
  tbResult_some_ge_two out k h

/-- Witness for claim C10 at the concrete trace `outC10w`, on which the
assertion fails at iteration 3. -/
theorem claim_C10_witness : tbResult outC10w = some 3 ∧ 2 ≤ 3 := by
  have hsome : tbResult outC10w = some 3 := by
    apply tbResult_fail outC10w 2 (by norm_num) (by norm_num)
    · intro k h1 h2
      have hk : k = 1 := by omega
      subst hk
      decide
    · decide
  exact ⟨hsome, claim_C10 outC10w 3 hsome⟩

/-! ### The sine stimulus: truncation versus rounding -/

lemma sin157_bounds :
    (999.5 : ℝ) < 1000 * Real.sin ((157 : ℝ) / 100) ∧
      1000 * Real.sin ((157 : ℝ) / 100) < 1000 := by
  have hpl := Real.pi_gt_d6
  have hpu := Real.pi_lt_d6
  obtain ⟨e, he⟩ : ∃ y : ℝ, y = Real.pi / 2 - 157 / 100 := ⟨_, rfl⟩
  have he1 : (0.000796 : ℝ) < e := by
    rw [he]
    linarith
  have he2 : e < (0.0007965 : ℝ) := by
    rw [he]
    linarith
  have hsin : Real.sin ((157 : ℝ) / 100) = Real.cos e := by
    rw [show (157 : ℝ) / 100 = Real.pi / 2 - e by rw [he]; ring]
    exact Real.sin_pi_div_two_sub e
  constructor
  · rw [hsin]
    have hlow : 1 - e ^ 2 / 2 ≤ Real.cos e := Real.one_sub_sq_div_two_le_cos
    have hsq : e ^ 2 < (0.0007965 : ℝ) ^ 2 := by nlinarith
    nlinarith
  · rw [hsin]
    have h1 : Real.cos e ≤ 1 := Real.cos_le_one e
    have hne : Real.cos e ≠ 1 := by
      intro hc
      have hz : e = 0 :=
        (Real.cos_eq_one_iff_of_lt_of_lt (by linarith) (by linarith)).mp hc
      rw [hz] at he1
      norm_num at he1
    have : Real.cos e < 1 := lt_of_le_of_ne h1 hne
    linarith

/-- Claim C3 (counterexample): the claim says the driven input equals
`round(1000 * sin(i/100))`; the code computes `int(1000*math.sin(i/100))`,
which truncates toward zero. At stimulus index 157 the value
`1000*sin(1.57)` lies strictly between 999.5 and 1000, so the code drives
999 while the claimed rounding gives 1000. -/
theorem claim_C3_counterexample :
    data_in 157 = 999 ∧ specStim 157 = 1000 ∧ data_in 157 ≠ specStim 157 := by
  obtain ⟨hl, hu⟩ := sin157_bounds
  have hc : ((157 : ℕ) : ℝ) = (157 : ℝ) := by norm_num
  have hpos : (0 : ℝ) ≤ 1000 * Real.sin ((157 : ℝ) / 100) := by linarith
  have h999 : data_in 157 = 999 := by
    unfold data_in
    rw [hc, if_pos hpos, Int.floor_eq_iff]
    constructor
    · push_cast
      linarith
    · push_cast
      linarith
  have h1000 : specStim 157 = 1000 := by
    unfold specStim
    rw [hc, round_eq, Int.floor_eq_iff]
    constructor
    · push_cast
      linarith
    · push_cast
      linarith
  refine ⟨h999, h1000, ?_⟩
  rw [h999, h1000]
  decide

/-- Claim C3 (amended): for every stimulus index `i`, the driven input
sample is `int(1000*math.sin(i/100))`, the truncation toward zero of
`1000*sin(i/100)`: it lies strictly within 1 of `1000*sin(i/100)` and its
magnitude never exceeds that of `1000*sin(i/100)` (so it is not, in
general, the rounded value, which can be larger in magnitude). -/
theorem claim_C3 (i : Nat) :
    |(data_in i : ℝ) - 1000 * Real.sin ((i : ℝ) / 100)| < 1 ∧
      |(data_in i : ℝ)| ≤ |1000 * Real.sin ((i : ℝ) / 100)| := by
  by_cases h : 0 ≤ 1000 * Real.sin ((i : ℝ) / 100)
  · have hd : data_in i = ⌊1000 * Real.sin ((i : ℝ) / 100)⌋ := by
      unfold data_in
      rw [if_pos h]
    rw [hd]
    have h1 := Int.floor_le (1000 * Real.sin ((i : ℝ) / 100))
    have h2 := Int.lt_floor_add_one (1000 * Real.sin ((i : ℝ) / 100))
    have h3 : (0 : ℝ) ≤ (⌊1000 * Real.sin ((i : ℝ) / 100)⌋ : ℝ) := by
      exact_mod_cast Int.floor_nonneg.mpr h
    constructor
    · rw [abs_sub_lt_iff]
      constructor <;> linarith
    · rw [abs_of_nonneg h3, abs_of_nonneg h]
      exact h1
  · push_neg at h
    have hd : data_in i = ⌈1000 * Real.sin ((i : ℝ) / 100)⌉ := by
      unfold data_in
      rw [if_neg (not_le.mpr h)]
    rw [hd]
    have h1 := Int.le_ceil (1000 * Real.sin ((i : ℝ) / 100))
    have h2 := Int.ceil_lt_add_one (1000 * Real.sin ((i : ℝ) / 100))
    have h3i : ⌈1000 * Real.sin ((i : ℝ) / 100)⌉ ≤ (0 : ℤ) := by
      apply Int.ceil_le.mpr
      push_cast
      exact h.le
    have h3 : ((⌈1000 * Real.sin ((i : ℝ) / 100)⌉ : ℤ) : ℝ) ≤ 0 := by
      exact_mod_cast h3i
    constructor
    · rw [abs_sub_lt_iff]
      constructor <;> linarith
    · rw [abs_of_nonpos h3, abs_of_nonpos h.le]
      linarith

/-! ### Warm-up and encoding claims -/

/-- Warm-up trace used in the witness for claim C5: arbitrary nonzero
values during warm-up ticks, zero afterwards. -/
def outC5g : Nat → Int := fun t => if t ≤ 1024 then 999 else 0

/-- Claim C5: before the sine stimulus begins the harness drives the input
sample to zero and lets exactly 1024 sample-clock ticks elapse; no output
check is performed during warm-up, so the test outcome is independent of
the outputs present at warm-up ticks. -/
theorem claim_C5 :
    warmup_ticks = 1024 ∧
      (∀ t, t ≤ warmup_ticks → sample_in_drive t = 0) ∧
      ∀ g gg : Nat → Int, (∀ t, warmup_ticks < t → g t = gg t) →
        tbResultG g = tbResultG gg := by
  refine ⟨rfl, ?_, ?_⟩
  · intro t ht
    unfold sample_in_drive
    rw [if_pos ht]
  · intro g gg hagree
    unfold tbResultG
    have hfun : (fun i => g (warmup_ticks + 1 + i)) =
        fun i => gg (warmup_ticks + 1 + i) := by
      funext i
      exact hagree _ (by omega)
    rw [hfun]

/-- Witness for claim C5: the input is zero at warm-up tick 1000, and the
test outcome on a trace with garbage warm-up outputs equals the outcome
with those outputs zeroed. -/
theorem claim_C5_witness :
    sample_in_drive 1000 = 0 ∧ tbResultG outC5g = tbResultG (fun _ => 0) := by
  constructor
  · exact claim_C5.2.1 1000 (by norm_num [warmup_ticks])
  · apply claim_C5.2.2
    intro t ht
    have ht2 : 1024 < t := ht
    unfold outC5g
    rw [if_neg (show ¬t ≤ 1024 by omega)]

/-- Claim C7: samples are encoded for the module and decoded from it as
16-bit two's-complement signed integers: encoding then decoding is the
identity on the signed 16-bit range, every decoded value lies in that
range, and at each stimulus iteration `i` the harness drives exactly the
16-bit encoding of the computed stimulus sample. -/
theorem claim_C7 :
    (∀ x : Int, -(2 ^ 15) ≤ x → x < 2 ^ 15 →
        signed_from_bits (bits_from_signed x 16) 16 = x) ∧
      (∀ b : Nat,
        -(2 ^ 15) ≤ signed_from_bits b 16 ∧ signed_from_bits b 16 < 2 ^ 15) ∧
      ∀ i : Nat,
        sample_in_drive (warmup_ticks + 1 + i) = bits_from_signed (data_in i) 16 := by
  refine ⟨?_, ?_, ?_⟩
  · intro x h1 h2
    simp only [signed_from_bits, bits_from_signed]
    split_ifs <;> omega
  · intro b
    simp only [signed_from_bits]
    constructor
    · split_ifs <;> omega
    · split_ifs <;> omega
  · intro i
    unfold sample_in_drive
    rw [if_neg (show ¬warmup_ticks + 1 + i ≤ warmup_ticks by omega)]
    have he : warmup_ticks + 1 + i - (warmup_ticks + 1) = i := by omega
    rw [he]

/-- Witness for claim C7: the encode-decode round trip at the concrete
sample -5, together with the concrete 16-bit encoding of -5. -/
theorem claim_C7_witness :
    signed_from_bits (bits_from_signed (-5) 16) 16 = -5 ∧
      bits_from_signed (-5) 16 = 65531 :=
  ⟨claim_C7.1 (-5) (by norm_num) (by norm_num), by decide⟩
